import Mathlib

/-!
Verification of the Gematria tool of the Shabbot repository
(`src/tools/gematria_tool.py`).

The Python module defines a class `GematriaCalculator` holding a fixed
letter-value table (`hebrew_values`), a method `calculate_gematria` that
filters the input down to table characters, sums their values and builds a
per-character breakdown, a letter-name helper, a `format_result` renderer,
and a module-level tool function `calculate_gematria(hebrew_text, detailed)`
that wraps the method and formats its output.

The embedding below translates those functions directly: dictionaries become
functions into `Option`, the result dictionary becomes `GematriaResult`
(the error dictionary `{"error": msg, "value": 0, "breakdown": []}` keeps its
`value` and `breakdown` fields in the `error` constructor), and the
accumulation `for` loop becomes the structurally recursive `gematria_loop`.
-/

/-- One entry of the `breakdown` list built by
`GematriaCalculator.calculate_gematria`: the dictionary
`{"character": char, "value": value, "name": self._get_hebrew_letter_name(char)}`. -/
structure BreakdownEntry where
  character : Char
  value : Nat
  name : String
  deriving Repr, DecidableEq

/-- The dictionary returned by `GematriaCalculator.calculate_gematria`: either
an error dictionary (`error` message together with its `value: 0` and
`breakdown: []` fields) or the success dictionary with keys `text`,
`cleaned_text`, `value`, `breakdown`, `character_count`. -/
inductive GematriaResult where
  | error (msg : String) (value : Nat) (breakdown : List BreakdownEntry)
  | ok (text : String) (cleaned_text : String) (value : Nat)
      (breakdown : List BreakdownEntry) (character_count : Nat)
  deriving Repr, DecidableEq

namespace GematriaCalculator

/-- The table `self.hebrew_values` of `GematriaCalculator.__init__`:
traditional values for the 22 letters plus the 5 final forms; any other
character is absent from the dictionary (`none`). -/
def hebrew_values : Char → Option Nat
  | 'א' => some 1
  | 'ב' => some 2
  | 'ג' => some 3
  | 'ד' => some 4
  | 'ה' => some 5
  | 'ו' => some 6
  | 'ז' => some 7
  | 'ח' => some 8
  | 'ט' => some 9
  | 'י' => some 10
  | 'כ' => some 20
  | 'ל' => some 30
  | 'מ' => some 40
  | 'נ' => some 50
  | 'ס' => some 60
  | 'ע' => some 70
  | 'פ' => some 80
  | 'צ' => some 90
  | 'ק' => some 100
  | 'ר' => some 200
  | 'ש' => some 300
  | 'ת' => some 400
  | 'ך' => some 20
  | 'ם' => some 40
  | 'ן' => some 50
  | 'ף' => some 80
  | 'ץ' => some 90
  | _ => none

/-- `GematriaCalculator._get_hebrew_letter_name`: the `letter_names`
dictionary lookup with the character itself as the default. -/
def get_hebrew_letter_name (char : Char) : String :=
  match char with
  | 'א' => "Alef"
  | 'ב' => "Bet"
  | 'ג' => "Gimel"
  | 'ד' => "Dalet"
  | 'ה' => "He"
  | 'ו' => "Vav"
  | 'ז' => "Zayin"
  | 'ח' => "Chet"
  | 'ט' => "Tet"
  | 'י' => "Yud"
  | 'כ' => "Kaf"
  | 'ל' => "Lamed"
  | 'מ' => "Mem"
  | 'נ' => "Nun"
  | 'ס' => "Samech"
  | 'ע' => "Ayin"
  | 'פ' => "Pe"
  | 'צ' => "Tzadi"
  | 'ק' => "Kuf"
  | 'ר' => "Resh"
  | 'ש' => "Shin"
  | 'ת' => "Tav"
  | 'ך' => "Final Kaf"
  | 'ם' => "Final Mem"
  | 'ן' => "Final Nun"
  | 'ף' => "Final Pe"
  | 'ץ' => "Final Tzadi"
  | c => c.toString

/-- Line 48 of the source: `''.join(char for char in hebrew_text if char in
self.hebrew_values)` — the input's characters kept exactly when they are keys
of the table, in order. -/
def cleaned_text (hebrew_text : String) : String :=
  ⟨hebrew_text.data.filter fun char => (hebrew_values char).isSome⟩

/-- Lines 57–68 of the source: the `for char in cleaned_text` loop that
accumulates `total_value` and appends to `breakdown` (the loop re-checks
`char in self.hebrew_values` although every character of `cleaned_text`
already passed the filter). -/
def gematria_loop : List Char → Nat → List BreakdownEntry →
    Nat × List BreakdownEntry
  | [], total_value, breakdown => (total_value, breakdown)
  | char :: rest, total_value, breakdown =>
    match hebrew_values char with
    | some value =>
      gematria_loop rest (total_value + value)
        (breakdown ++ [⟨char, value, get_hebrew_letter_name char⟩])
    | none => gematria_loop rest total_value breakdown

/-- `GematriaCalculator.calculate_gematria`: empty input gives the
`"No text provided"` error dictionary; an input whose filtered text is empty
gives the `"No Hebrew characters found in text"` error dictionary; otherwise
the success dictionary with the accumulated total and breakdown and
`character_count = len(cleaned_text)`. -/
def calculate_gematria (hebrew_text : String) : GematriaResult :=
  if hebrew_text = "" then
    .error "No text provided" 0 []
  else
    let cleaned := cleaned_text hebrew_text
    if cleaned = "" then
      .error "No Hebrew characters found in text" 0 []
    else
      let r := gematria_loop cleaned.data 0 []
      .ok hebrew_text cleaned r.1 r.2 cleaned.length

/-- `GematriaCalculator.format_result`: an error dictionary renders as
`"❌ "` plus the message; a success dictionary renders the header lines and,
when the breakdown is nonempty, one line per breakdown entry. -/
def format_result (result : GematriaResult) : String :=
  match result with
  | .error msg _ _ => "❌ " ++ msg
  | .ok text _ value breakdown character_count =>
    let output := "📊 Gematria Calculation for: " ++ text ++ "\n" ++
      "🔢 Total Value: " ++ toString value ++ "\n" ++
      "📝 Characters: " ++ toString character_count ++ "\n\n"
    if breakdown ≠ [] then
      output ++ "📋 Breakdown:\n" ++
        String.join (breakdown.map fun item =>
          "  " ++ item.character.toString ++ " (" ++ item.name ++ ") = " ++
            toString item.value ++ "\n")
    else
      output

end GematriaCalculator

/-- The module-level tool function `calculate_gematria(hebrew_text, detailed)`:
an error result is rendered as `"Error: "` plus the message, a success is
rendered by `format_result` when `detailed` is true and as the single
sentence `"The Gematria value of '...' is ..."` otherwise. -/
def calculate_gematria (hebrew_text : String) (detailed : Bool) : String :=
  let result := GematriaCalculator.calculate_gematria hebrew_text
  match result with
  | .error msg _ _ => "Error: " ++ msg
  | .ok _ _ value _ _ =>
    if detailed then
      GematriaCalculator.format_result result
    else
      "The Gematria value of '" ++ hebrew_text ++ "' is " ++ toString value

namespace GematriaCalculator

/-- Whether `char in self.hebrew_values` holds: the filter predicate of
line 48. -/
def in_table (char : Char) : Bool :=
  (hebrew_values char).isSome

/-- The value looked up for a character known to be in the table. -/
def table_value (char : Char) : Nat :=
  (hebrew_values char).getD 0

/-- The breakdown entry appended for a character of `cleaned_text`. -/
def entry_of (char : Char) : BreakdownEntry :=
  ⟨char, table_value char, get_hebrew_letter_name char⟩

theorem string_eq_empty_iff (s : String) : s = "" ↔ s.data = [] := by
  constructor
  · intro h; subst h; rfl
  · intro h; exact String.ext h

theorem cleaned_text_data (s : String) :
    (cleaned_text s).data = s.data.filter in_table := rfl

/-- The loop's closed form: starting from accumulators `total` and `bd`, it
adds the table values of the in-table characters and appends one entry per
in-table character, in order. -/
theorem gematria_loop_eq (chars : List Char) (total : Nat)
    (bd : List BreakdownEntry) :
    gematria_loop chars total bd =
      (total + ((chars.filter in_table).map table_value).sum,
       bd ++ (chars.filter in_table).map entry_of) := by
  induction chars generalizing total bd with
  | nil => simp [gematria_loop]
  | cons char rest ih =>
    cases h : hebrew_values char with
    | none =>
      have hin : in_table char = false := by simp [in_table, h]
      simp [gematria_loop, h, hin, ih]
    | some value =>
      have hin : in_table char = true := by simp [in_table, h]
      have hval : table_value char = value := by simp [table_value, h]
      have hentry : entry_of char = ⟨char, value, get_hebrew_letter_name char⟩ := by
        simp [entry_of, hval]
      simp only [gematria_loop, h]
      rw [ih, List.filter_cons]
      simp [hin, hval, hentry, Nat.add_assoc]

/-- Every character of the cleaned text is in the table, so the second filter
pass inside the loop keeps all of it. -/
theorem cleaned_filter_eq_self (s : String) :
    (cleaned_text s).data.filter in_table = (cleaned_text s).data := by
  refine List.filter_eq_self.mpr ?_
  intro a ha
  rw [cleaned_text_data] at ha
  exact (List.mem_filter.mp ha).2

/-- Characterization of a successful run of `calculate_gematria`: it returns
`ok` exactly when the input and its cleaned text are nonempty, and then every
field is determined by `cleaned_text`. -/
theorem calculate_gematria_eq_ok_iff (s t ct : String) (v : Nat)
    (bd : List BreakdownEntry) (cc : Nat) :
    calculate_gematria s = .ok t ct v bd cc ↔
      s ≠ "" ∧ cleaned_text s ≠ "" ∧ t = s ∧ ct = cleaned_text s ∧
        v = ((cleaned_text s).data.map table_value).sum ∧
        bd = (cleaned_text s).data.map entry_of ∧
        cc = (cleaned_text s).length := by
  simp only [calculate_gematria]
  split_ifs with h1 h2
  · simp [h1]
  · simp [h2]
  · rw [gematria_loop_eq, cleaned_filter_eq_self]
    simp only [GematriaResult.ok.injEq, Nat.zero_add, List.nil_append]
    constructor
    · rintro ⟨ht, hct, hv, hbd, hcc⟩
      exact ⟨h1, h2, ht.symm, hct.symm, hv.symm, hbd.symm, hcc.symm⟩
    · rintro ⟨-, -, ht, hct, hv, hbd, hcc⟩
      exact ⟨ht.symm, hct.symm, hv.symm, hbd.symm, hcc.symm⟩

/-- C1: the `cleaned_text` of a successful `calculate_gematria` run is
exactly the ordered subsequence of the input made of the table's characters:
it is a subsequence of the input, each of its characters is a key of
`hebrew_values`, and each character occurs in it exactly as often as in the
input when it is a key and never otherwise; concretely, encoding "a-ש!b"
keeps only "ש" with total value 300 and character count 1. -/
theorem filtered_text_is_table_subsequence :
    (∀ (s t ct : String) (v : Nat) (bd : List BreakdownEntry) (cc : Nat),
        calculate_gematria s = .ok t ct v bd cc →
          ct.data.Sublist s.data ∧
          (∀ c ∈ ct.data, (hebrew_values c).isSome) ∧
          (∀ c : Char, ct.data.count c =
            if (hebrew_values c).isSome then s.data.count c else 0)) ∧
    calculate_gematria "a-ש!b" =
      .ok "a-ש!b" "ש" 300 [⟨'ש', 300, "Shin"⟩] 1 := by
  constructor
  · intro s t ct v bd cc h
    obtain ⟨-, -, -, hct, -, -, -⟩ :=
      (calculate_gematria_eq_ok_iff s t ct v bd cc).mp h
    subst hct
    refine ⟨?_, ?_, ?_⟩
    · rw [cleaned_text_data]
      exact List.filter_sublist _
    · intro c hc
      rw [cleaned_text_data] at hc
      simpa [in_table] using (List.mem_filter.mp hc).2
    · intro c
      rw [cleaned_text_data]
      by_cases hk : (hebrew_values c).isSome
      · rw [if_pos hk]
        exact List.count_filter (by simpa [in_table] using hk)
      · rw [if_neg hk]
        rw [List.count_eq_zero]
        intro hmem
        exact hk (by simpa [in_table] using (List.mem_filter.mp hmem).2)
  · decide

/-- C2: on every successful run, `value` is the sum of the `value` fields of
the breakdown entries, and `character_count` equals the breakdown's length,
which equals the cleaned text's length. -/
theorem total_and_count_invariants (s t ct : String) (v : Nat)
    (bd : List BreakdownEntry) (cc : Nat)
    (h : calculate_gematria s = .ok t ct v bd cc) :
    v = (bd.map BreakdownEntry.value).sum ∧ cc = bd.length ∧
      bd.length = ct.length := by
  obtain ⟨-, -, -, hct, hv, hbd, hcc⟩ :=
    (calculate_gematria_eq_ok_iff s t ct v bd cc).mp h
  subst hct hv hbd hcc
  refine ⟨?_, ?_, ?_⟩
  · rw [List.map_map]
    rfl
  · rw [List.length_map]
    rfl
  · rw [List.length_map]
    rfl

theorem total_and_count_invariants_witness :
    376 = ([⟨'ש', 300, "Shin"⟩, ⟨'ל', 30, "Lamed"⟩, ⟨'ו', 6, "Vav"⟩,
        (⟨'ם', 40, "Final Mem"⟩ : BreakdownEntry)].map BreakdownEntry.value).sum ∧
      4 = [⟨'ש', 300, "Shin"⟩, ⟨'ל', 30, "Lamed"⟩, ⟨'ו', 6, "Vav"⟩,
        (⟨'ם', 40, "Final Mem"⟩ : BreakdownEntry)].length ∧
      [⟨'ש', 300, "Shin"⟩, ⟨'ל', 30, "Lamed"⟩, ⟨'ו', 6, "Vav"⟩,
        (⟨'ם', 40, "Final Mem"⟩ : BreakdownEntry)].length = ("שלום" : String).length :=
  total_and_count_invariants "שלום" "שלום" "שלום" 376
    [⟨'ש', 300, "Shin"⟩, ⟨'ל', 30, "Lamed"⟩, ⟨'ו', 6, "Vav"⟩, ⟨'ם', 40, "Final Mem"⟩]
    4 (by decide)

/-- C3: under the fixed table, "שלום" encodes to total value 376 with
character count 4, and "אהבה" encodes to total value 13 with character
count 4 (full results shown). -/
theorem shalom_and_ahava_values :
    calculate_gematria "שלום" = .ok "שלום" "שלום" 376
      [⟨'ש', 300, "Shin"⟩, ⟨'ל', 30, "Lamed"⟩, ⟨'ו', 6, "Vav"⟩,
       ⟨'ם', 40, "Final Mem"⟩] 4 ∧
    calculate_gematria "אהבה" = .ok "אהבה" "אהבה" 13
      [⟨'א', 1, "Alef"⟩, ⟨'ה', 5, "He"⟩, ⟨'ב', 2, "Bet"⟩, ⟨'ה', 5, "He"⟩] 4 := by
  decide

/-- C4: `calculate_gematria` returns the `"No text provided"` error
dictionary (whose `value` is 0 and whose `breakdown` is empty, so no partial
result) exactly when the input string is empty. -/
theorem empty_input_error_iff (s : String) :
    calculate_gematria s = .error "No text provided" 0 [] ↔ s = "" := by
  simp only [calculate_gematria]
  split_ifs with h1 h2
  · simp [h1]
  · simp only [GematriaResult.error.injEq]
    constructor
    · rintro ⟨hmsg, -, -⟩
      exact absurd hmsg (by decide)
    · intro hs
      exact absurd hs h1
  · constructor
    · intro h
      exact absurd h (by simp)
    · intro hs
      exact absurd hs h1

/-- C5: a non-empty input none of whose characters is a key of the table
yields the `"No Hebrew characters found in text"` error dictionary, with
`value` 0 and an empty `breakdown` (no partial result). -/
theorem no_recognized_characters_error (s : String) (hne : s ≠ "")
    (hnone : ∀ c ∈ s.data, hebrew_values c = none) :
    calculate_gematria s = .error "No Hebrew characters found in text" 0 [] := by
  have hcl : cleaned_text s = "" := by
    rw [string_eq_empty_iff, cleaned_text_data, List.filter_eq_nil_iff]
    intro a ha
    simp [in_table, hnone a ha]
  simp only [calculate_gematria]
  rw [if_neg hne, if_pos hcl]

theorem no_recognized_characters_error_witness :
    GematriaCalculator.calculate_gematria "hello" =
      .error "No Hebrew characters found in text" 0 [] :=
  no_recognized_characters_error "hello" (by decide) (by decide)

/-- The property behind C6: a result is either one of the two recognized
error dictionaries or a success with a strictly positive total value. -/
def result_distinguishes : GematriaResult → Prop
  | .error msg _ _ =>
      msg = "No text provided" ∨ msg = "No Hebrew characters found in text"
  | .ok _ _ value _ _ => 0 < value

/-- Every value in the table is strictly positive. -/
theorem hebrew_values_pos (c : Char) (v : Nat)
    (h : hebrew_values c = some v) : 0 < v := by
  unfold hebrew_values at h
  split at h <;> cases h <;> decide

/-- C6: `calculate_gematria` never coerces a failure to a plain zero result:
every returned value is either an error dictionary carrying one of the two
distinguishing messages, or a success whose total value is strictly
positive — so a zero value can never be confused with "no valid input". -/
theorem errors_distinguished_from_zero (s : String) :
    result_distinguishes (calculate_gematria s) := by
  simp only [calculate_gematria]
  split_ifs with h1 h2
  · exact Or.inl rfl
  · exact Or.inr rfl
  · show 0 < (gematria_loop (cleaned_text s).data 0 []).1
    rw [gematria_loop_eq, cleaned_filter_eq_self]
    have hdata : (cleaned_text s).data ≠ [] := by
      intro hnil
      exact h2 ((string_eq_empty_iff _).mpr hnil)
    obtain ⟨c, rest, hd⟩ := List.exists_cons_of_ne_nil hdata
    have hc : in_table c = true := by
      have hmem : c ∈ (cleaned_text s).data := by
        rw [hd]; exact List.mem_cons_self c rest
      rw [cleaned_text_data] at hmem
      exact (List.mem_filter.mp hmem).2
    obtain ⟨v, hv⟩ := Option.isSome_iff_exists.mp (by simpa [in_table] using hc)
    have hpos := hebrew_values_pos c v hv
    have htv : table_value c = v := by simp [table_value, hv]
    rw [hd]
    simp only [List.map_cons, List.sum_cons, htv]
    omega

/-- C7: each final-form letter (Final Kaf, Final Mem, Final Nun, Final Pe,
Final Tzadi) is a key of the table and maps to exactly the weight of its
base form, so a base letter and its final variant contribute the same
amount to any total. -/
theorem final_forms_share_base_weight :
    hebrew_values 'ך' = some 20 ∧ hebrew_values 'כ' = some 20 ∧
    hebrew_values 'ם' = some 40 ∧ hebrew_values 'מ' = some 40 ∧
    hebrew_values 'ן' = some 50 ∧ hebrew_values 'נ' = some 50 ∧
    hebrew_values 'ף' = some 80 ∧ hebrew_values 'פ' = some 80 ∧
    hebrew_values 'ץ' = some 90 ∧ hebrew_values 'צ' = some 90 := by
  decide

end GematriaCalculator

/-- C8: encoding is a pure function of the input and the fixed table: two
calls on the same string return equal result dictionaries, and so does the
tool-level wrapper for either value of `detailed` — the embedding has no
other state for the result to depend on. -/
theorem encode_deterministic (s : String) :
    GematriaCalculator.calculate_gematria s =
        GematriaCalculator.calculate_gematria s ∧
      ∀ detailed : Bool,
        calculate_gematria s detailed = calculate_gematria s detailed :=
  ⟨rfl, fun _ => rfl⟩

/-- C9: with `detailed = false`, a successful run is rendered as the one
sentence naming the input text and its total value; on "שלום" the sentence
embeds the literal 376. -/
theorem simple_format_states_text_and_value :
    (∀ (s t ct : String) (v : Nat) (bd : List BreakdownEntry) (cc : Nat),
        GematriaCalculator.calculate_gematria s = .ok t ct v bd cc →
          calculate_gematria s false =
            "The Gematria value of '" ++ s ++ "' is " ++ toString v) ∧
    calculate_gematria "שלום" false = "The Gematria value of 'שלום' is 376" := by
  constructor
  · intro s t ct v bd cc h
    simp [calculate_gematria, h]
  · decide

namespace GematriaCalculator

/-- C10: encoding is additive over string concatenation: when both halves
succeed, the concatenation succeeds with concatenated cleaned text and
breakdown and with the sum of the two totals (and counts). -/
theorem encode_additive_over_append
    (s1 s2 t1 ct1 t2 ct2 : String) (v1 v2 : Nat)
    (bd1 bd2 : List BreakdownEntry) (cc1 cc2 : Nat)
    (h1 : calculate_gematria s1 = .ok t1 ct1 v1 bd1 cc1)
    (h2 : calculate_gematria s2 = .ok t2 ct2 v2 bd2 cc2) :
    calculate_gematria (s1 ++ s2) =
      .ok (s1 ++ s2) (ct1 ++ ct2) (v1 + v2) (bd1 ++ bd2) (cc1 + cc2) := by
  obtain ⟨hs1, hc1, ht1, hct1, hv1, hbd1, hcc1⟩ :=
    (calculate_gematria_eq_ok_iff s1 t1 ct1 v1 bd1 cc1).mp h1
  obtain ⟨hs2, hc2, ht2, hct2, hv2, hbd2, hcc2⟩ :=
    (calculate_gematria_eq_ok_iff s2 t2 ct2 v2 bd2 cc2).mp h2
  have hclapp : cleaned_text (s1 ++ s2) = cleaned_text s1 ++ cleaned_text s2 := by
    apply String.ext
    rw [String.data_append, cleaned_text_data, cleaned_text_data,
      cleaned_text_data, String.data_append, List.filter_append]
  rw [calculate_gematria_eq_ok_iff]
  refine ⟨?_, ?_, rfl, ?_, ?_, ?_, ?_⟩
  · rw [Ne, string_eq_empty_iff, String.data_append]
    intro hnil
    rw [List.append_eq_nil] at hnil
    exact hs1 ((string_eq_empty_iff s1).mpr hnil.1)
  · rw [hclapp, Ne, string_eq_empty_iff, String.data_append]
    intro hnil
    rw [List.append_eq_nil] at hnil
    exact hc1 ((string_eq_empty_iff _).mpr hnil.1)
  · rw [hclapp, hct1, hct2]
  · rw [hv1, hv2, hclapp, String.data_append, List.map_append, List.sum_append]
  · rw [hbd1, hbd2, hclapp, String.data_append, List.map_append]
  · rw [hcc1, hcc2, hclapp, String.length_append]

theorem encode_additive_over_append_witness :
    GematriaCalculator.calculate_gematria ("שלום" ++ "אהבה") =
      .ok ("שלום" ++ "אהבה") ("שלום" ++ "אהבה") (376 + 13)
        ([⟨'ש', 300, "Shin"⟩, ⟨'ל', 30, "Lamed"⟩, ⟨'ו', 6, "Vav"⟩,
          ⟨'ם', 40, "Final Mem"⟩] ++
         [⟨'א', 1, "Alef"⟩, ⟨'ה', 5, "He"⟩, ⟨'ב', 2, "Bet"⟩, ⟨'ה', 5, "He"⟩])
        (4 + 4) :=
  encode_additive_over_append "שלום" "אהבה" "שלום" "שלום" "אהבה" "אהבה" 376 13
    [⟨'ש', 300, "Shin"⟩, ⟨'ל', 30, "Lamed"⟩, ⟨'ו', 6, "Vav"⟩, ⟨'ם', 40, "Final Mem"⟩]
    [⟨'א', 1, "Alef"⟩, ⟨'ה', 5, "He"⟩, ⟨'ב', 2, "Bet"⟩, ⟨'ה', 5, "He"⟩]
    4 4 (by decide) (by decide)

end GematriaCalculator
